import Mathlib

/-!
Verification of the listwise sliding-window reranking engine of rank_llm
against its specification. The visible source (src/rank_llm/demo/
rerank_openrouter.py) is a demo driver; the engine components it calls
(PermutationParser, SlidingWindowReranker, BatchOrchestrator,
CredentialPool, CompletionClient, SafeOpenaiBackend) are modelled here
from the specification, as shallow executable Lean definitions.
-/

namespace RankLLM

/-- Modelled from the spec (section 3, Data model): a Query is an opaque
identifier plus text, immutable once constructed. Mirrors the demo call
Query(text=..., qid=1). -/
structure Query where
  qid : Nat
  text : String
  deriving Repr, DecidableEq

/-- Modelled from the spec (section 3): a Candidate has an identifier owned
by the caller, a document payload, and an engine-owned mutable score.
Scores are modelled as integers carrying the rank-derived value. -/
structure Candidate where
  docid : String
  doc : String
  score : Int
  deriving Repr, DecidableEq

/-- Modelled from the spec (section 3): a Request is a query plus an ordered
candidate sequence; the initial order is the baseline order. -/
structure Request where
  query : Query
  candidates : List Candidate
  deriving Repr, DecidableEq

/-- Error taxonomy of the spec (section 7), restricted to the kinds the
backend-invocation layer classifies. -/
inductive BackendError where
  | networkError
  | rateLimitError
  | authError
  | malformedResponseError
  deriving Repr, DecidableEq

/-- Parse failure of the PermutationParser (spec section 4.4). -/
inductive ParseError where
  | unparsableError
  deriving Repr, DecidableEq

/-- Modelled from the spec (section 3): a RankingResult is a permutation of
candidate identifiers within one window. -/
structure RankingResult where
  permutation : List Nat
  deriving Repr, DecidableEq

/-- Extract the maximal digit runs of a character stream as natural numbers,
tolerant of surrounding prose and arbitrary delimiters (spec section 4.4).
The accumulator holds the digit run currently being read. -/
def extractTokensAux : List Char → Option Nat → List Nat
  | [], none => []
  | [], some n => [n]
  | c :: cs, acc =>
    if c.isDigit then
      extractTokensAux cs (some ((acc.getD 0) * 10 + (c.toNat - 48)))
    else
      match acc with
      | none => extractTokensAux cs none
      | some n => n :: extractTokensAux cs none

/-- All numeric position tokens of a raw model output, in order of
occurrence. -/
def extractTokens (raw : String) : List Nat :=
  extractTokensAux raw.data none

/-- Keep the first occurrence of each element, dropping later duplicates
(spec section 4.4: first occurrence wins). seen holds elements already
emitted. -/
def dedupFirstAux (seen : List Nat) : List Nat → List Nat
  | [] => []
  | x :: xs =>
    if x ∈ seen then dedupFirstAux seen xs
    else x :: dedupFirstAux (x :: seen) xs

/-- Modelled from the spec (section 4.4): the usable tokens of a raw text
with respect to a window identifier set are the extracted numeric tokens
that name a window identifier, first occurrence winning. -/
def usableTokens (raw : String) (windowIdentifiers : List Nat) : List Nat :=
  dedupFirstAux [] ((extractTokens raw).filter (fun t => decide (t ∈ windowIdentifiers)))

/-- Modelled from the spec (section 4.4, PermutationParser): parse raw model
text into a ranking over the window identifiers. Identifiers absent from
the parsed output are appended after all parsed entries in original
relative order; the call fails with UnparsableError exactly when zero
usable tokens are extracted. -/
def parse (raw : String) (windowIdentifiers : List Nat) :
    Except ParseError RankingResult :=
  let usable := usableTokens raw windowIdentifiers
  if usable = [] then
    Except.error ParseError.unparsableError
  else
    Except.ok ⟨usable ++ windowIdentifiers.filter (fun x => decide (x ∉ usable))⟩

/-- Modelled from the spec (section 6, caller API surface): the windowing
configuration knobs that shape one rerank call. -/
structure Config where
  window_size : Nat
  stride : Nat
  num_passes : Nat
  deriving Repr, DecidableEq

/-- Modelled from the spec (section 4.2, PromptBuilder): deterministically
render a query and a window of candidates, each candidate prefixed by a
stable positional index marker so the parser can map output back to
identifiers. -/
def buildPrompt (query : Query) (window : List Candidate) : String :=
  let numbered := window.enumFrom 1
  numbered.foldl
    (fun acc p => acc ++ " [" ++ toString p.1 ++ "] " ++ p.2.doc)
    ("Rank the passages for the query: " ++ query.text ++ ".")

/-- Reorder a window according to a parsed ranking whose identifiers are the
1-based positions of the window: position i selects the i-th candidate of
the pre-call window order. -/
def applyRankingResult (window : List Candidate) (r : RankingResult) :
    List Candidate :=
  r.permutation.filterMap (fun i => window.get? (i - 1))

/-- Modelled from the spec (sections 4.5 and 7): score one window. A backend
failure or an unparsable response falls back to the pre-call order of the
sub-range (passthrough) with the degraded flag set and the error recorded;
a parsed ranking reorders the sub-range. -/
def scoreWindow (backendText : String → Except BackendError String)
    (query : Query) (window : List Candidate) :
    List Candidate × Bool × Option BackendError :=
  match backendText (buildPrompt query window) with
  | Except.error e => (window, true, some e)
  | Except.ok raw =>
    match parse raw (List.range' 1 window.length) with
    | Except.error _ => (window, true, some BackendError.malformedResponseError)
    | Except.ok r => (applyRankingResult window r, false, none)

/-- Splice a window transformation into the candidate sequence at a given
start position and length, overwriting only that sub-range (spec section
4.5, Merging). -/
def spliceWindow (f : List Candidate → List Candidate × Bool × Option BackendError)
    (cands : List Candidate) (start len : Nat) :
    List Candidate × Bool × Option BackendError :=
  let pre := cands.take start
  let mid := (cands.drop start).take len
  let post := (cands.drop start).drop len
  let r := f mid
  (pre ++ r.1 ++ post, r.2.1, r.2.2)

/-- Descending window start positions from a given start down to zero,
stepping by the stride; the fuel bounds the iteration count. Every
generated list ends at start position zero. -/
def windowStartsAux (stride : Nat) : Nat → Nat → List Nat
  | _, 0 => [0]
  | start, fuel + 1 =>
    if start = 0 then [0] else start :: windowStartsAux stride (start - stride) fuel

/-- Modelled from the spec (section 4.5, Windowing): the overlapping window
start positions of one pass, traversed from the end of the sequence toward
the start. A sequence fitting in one window yields the single start 0. -/
def windowStarts (n windowSize stride : Nat) : List Nat :=
  if n ≤ windowSize then [0] else windowStartsAux stride (n - windowSize) n

/-- One full pass of the sliding-window rank-refinement loop: fold the
windows in traversal order over the running candidate sequence, each
window reading the state already refined by its predecessors (spec
section 4.5). The degraded flag is the disjunction over windows; the
error is the first one encountered. -/
def onePass (backendText : String → Except BackendError String) (query : Query)
    (cfg : Config) (cands : List Candidate) :
    List Candidate × Bool × Option BackendError :=
  (windowStarts cands.length cfg.window_size cfg.stride).foldl
    (fun acc start =>
      let r := spliceWindow (scoreWindow backendText query) acc.1 start cfg.window_size
      (r.1, acc.2.1 || r.2.1, acc.2.2 <|> r.2.2))
    (cands, false, none)

/-- Modelled from the spec (section 4.5): repeat the windowing pass the
configured number of times over the already-partially-sorted sequence. -/
def runPasses (backendText : String → Except BackendError String) (query : Query)
    (cfg : Config) : Nat → List Candidate × Bool × Option BackendError →
    List Candidate × Bool × Option BackendError
  | 0, st => st
  | n + 1, st =>
    let r := onePass backendText query cfg st.1
    runPasses backendText query cfg n (r.1, st.2.1 || r.2.1, st.2.2 <|> r.2.2)

/-- Assign the rank-derived score n, n-1, ... down the list (spec section
4.5, Merging: a monotonically decreasing rank-derived value across the
whole final order). -/
def assignScores : Nat → List Candidate → List Candidate
  | _, [] => []
  | n, c :: cs => { c with score := (n : Int) } :: assignScores (n - 1) cs

/-- Write the final strictly decreasing rank-derived scores onto the
reordered candidates. -/
def finalizeScores (cands : List Candidate) : List Candidate :=
  assignScores cands.length cands

/-- Modelled from the spec (sections 4.5 and 7): the per-request result of
one SlidingWindowReranker run; candidates reordered with populated scores,
plus the degraded flag and the specific error kind when any window fell
back to passthrough order. -/
structure RerankResult where
  query : Query
  candidates : List Candidate
  degraded : Bool
  errorKind : Option BackendError
  deriving Repr, DecidableEq

/-- Modelled from the spec (section 4.5, SlidingWindowReranker): rerank one
request by multi-pass sliding-window refinement against the backend,
then write rank-derived scores. -/
def rerankRequest (backendText : String → Except BackendError String)
    (cfg : Config) (req : Request) : RerankResult :=
  let r := runPasses backendText req.query cfg cfg.num_passes
    (req.candidates, false, none)
  ⟨req.query, finalizeScores r.1, r.2.1, r.2.2⟩

/-- Modelled from the spec (section 4.6, BatchOrchestrator): rerank a batch
of independent requests; results are returned in input order. -/
def rerankBatch (backendText : String → Except BackendError String)
    (cfg : Config) (reqs : List Request) : List RerankResult :=
  reqs.map (rerankRequest backendText cfg)

/-- Modelled from the spec (sections 4.6 and 5): batch execution under an
explicit completion schedule. Requests complete in the order given by
sched (a permutation of the request indices); completed results are
collected in completion order tagged by request index, then fanned back
in preserving the input order. -/
def rerankBatchScheduled (backendText : String → Except BackendError String)
    (cfg : Config) (reqs : List Request) (sched : List Nat) : List RerankResult :=
  let completed := sched.filterMap
    (fun j => (reqs.get? j).map (fun r => (j, rerankRequest backendText cfg r)))
  (List.range reqs.length).filterMap (fun i => completed.lookup i)

/-- Modelled from the spec (section 3): a Credential is key material plus a
cooldown-until timestamp and a consecutive-failure count, mutated only by
the CredentialPool. Time is modelled as a logical Nat clock. -/
structure Credential where
  key : Option String
  cooldownUntil : Nat
  failures : Nat
  deriving Repr, DecidableEq

/-- Acquire failure of the CredentialPool (spec sections 4.1 and 7). -/
inductive PoolError where
  | exhaustedError
  deriving Repr, DecidableEq

/-- Modelled from the spec (section 4.1, CredentialPool): the pool owns the
credentials, a round-robin pointer, the backoff base delay and cap, and
the maximum bounded wait of acquire. -/
structure CredentialPool where
  creds : List Credential
  rrIndex : Nat
  baseDelay : Nat
  capDelay : Nat
  maxWait : Nat
  deriving Repr, DecidableEq

/-- Outcome reported on release (spec section 4.1). -/
inductive ReleaseOutcome where
  | success
  | rateLimited
  deriving Repr, DecidableEq

/-- Modelled from the spec (section 4.1): release a credential reporting the
outcome. A rate-limit failure puts the credential in cooldown for
base delay times 2 to the consecutive-failure count, capped, and bumps
the failure count; success resets the failure count to zero. -/
def CredentialPool.release (p : CredentialPool) (i : Nat) (now : Nat)
    (outcome : ReleaseOutcome) : CredentialPool :=
  { p with creds := p.creds.modify (fun c =>
      match outcome with
      | ReleaseOutcome.success => { c with failures := 0 }
      | ReleaseOutcome.rateLimited =>
        { c with
          failures := c.failures + 1,
          cooldownUntil := now + min (p.baseDelay * 2 ^ c.failures) p.capDelay }) i }

/-- Round-robin probe order over n credential slots starting at the pointer
position. -/
def rrOrder (start n : Nat) : List Nat :=
  (List.range n).map (fun k => (start + k) % n)

/-- First credential index of the probe order whose cooldown has elapsed at
the given instant. -/
def findAvailable (creds : List Credential) (now : Nat) (order : List Nat) :
    Option Nat :=
  order.find? (fun i =>
    match creds.get? i with
    | some c => decide (c.cooldownUntil ≤ now)
    | none => false)

/-- Earliest cooldown expiry among the credentials (zero for an empty
pool). -/
def minCooldown (creds : List Credential) : Nat :=
  match creds with
  | [] => 0
  | c :: cs => cs.foldl (fun m d => min m d.cooldownUntil) c.cooldownUntil

/-- Modelled from the spec (section 4.1): acquire a credential at logical
time now. Round-robin among credentials not in cooldown; if all are in
cooldown, block until the earliest cooldown expires when that wait is
within the configured maximum, else fail with ExhaustedError. Returns the
selected index, the instant at which the acquisition happens, and the
updated pool. -/
def CredentialPool.acquire (p : CredentialPool) (now : Nat) :
    Except PoolError (Nat × Nat × CredentialPool) :=
  let order := rrOrder p.rrIndex p.creds.length
  match findAvailable p.creds now order with
  | some i => Except.ok (i, now, { p with rrIndex := (i + 1) % p.creds.length })
  | none =>
    let earliest := minCooldown p.creds
    if earliest ≤ now + p.maxWait then
      match findAvailable p.creds earliest order with
      | some i =>
        Except.ok (i, earliest, { p with rrIndex := (i + 1) % p.creds.length })
      | none => Except.error PoolError.exhaustedError
    else Except.error PoolError.exhaustedError

/-- One backend attempt either succeeds with raw text or fails with a typed
error (spec section 4.3). -/
inductive AttemptOutcome where
  | success (text : String)
  | failure (e : BackendError)
  deriving Repr, DecidableEq

/-- Modelled from the spec (section 4.3, CompletionClient): issue attempts
against the backend oracle (attempt index to outcome). NetworkError and
RateLimitError are retried while transient retry budget remains;
AuthError is surfaced immediately; MalformedResponseError is re-requested
at most once (its own budget). Returns the trace of attempt outcomes in
call order together with the final result. -/
def completeAux (oracle : Nat → AttemptOutcome) (k remaining mbudget : Nat) :
    List AttemptOutcome × Except BackendError String :=
  match oracle k with
  | AttemptOutcome.success t => ([AttemptOutcome.success t], Except.ok t)
  | AttemptOutcome.failure BackendError.authError =>
    ([AttemptOutcome.failure BackendError.authError],
     Except.error BackendError.authError)
  | AttemptOutcome.failure BackendError.networkError =>
    if h : remaining = 0 then
      ([AttemptOutcome.failure BackendError.networkError],
       Except.error BackendError.networkError)
    else
      let r := completeAux oracle (k + 1) (remaining - 1) mbudget
      (AttemptOutcome.failure BackendError.networkError :: r.1, r.2)
  | AttemptOutcome.failure BackendError.rateLimitError =>
    if h : remaining = 0 then
      ([AttemptOutcome.failure BackendError.rateLimitError],
       Except.error BackendError.rateLimitError)
    else
      let r := completeAux oracle (k + 1) (remaining - 1) mbudget
      (AttemptOutcome.failure BackendError.rateLimitError :: r.1, r.2)
  | AttemptOutcome.failure BackendError.malformedResponseError =>
    if h : mbudget = 0 then
      ([AttemptOutcome.failure BackendError.malformedResponseError],
       Except.error BackendError.malformedResponseError)
    else
      let r := completeAux oracle (k + 1) remaining (mbudget - 1)
      (AttemptOutcome.failure BackendError.malformedResponseError :: r.1, r.2)
termination_by remaining + mbudget
decreasing_by
  all_goals omega

/-- Modelled from the spec (section 4.3): one complete call with the
configured transient retry budget and a single malformed re-request. -/
def complete (oracle : Nat → AttemptOutcome) (maxRetries : Nat) :
    List AttemptOutcome × Except BackendError String :=
  completeAux oracle 0 maxRetries 1

/-- The abstract provider client held by the backend wrapper; the demo reads
its base_url attribute. -/
structure OpenAIClient where
  base_url : String
  deriving Repr, DecidableEq

/-- Modelled from the spec (section 6, credential source) and the demo
constructor call: SafeOpenaiBackend stores the model name, context size,
the supplied key list verbatim (keys are opaque, possibly absent values,
never validated at construction), and a client pointed at the supplied
api_base. -/
structure SafeOpenaiBackend where
  model : String
  context_size : Nat
  keys : List (Option String)
  client : OpenAIClient
  window_size : Nat
  deriving Repr, DecidableEq

/-- Modelled from the spec: construction of SafeOpenaiBackend as invoked by
create_openrouter_ranker. It is a total function: no key inspection, no
validation, no failure path; credential problems surface only when a call
is made. -/
def mkSafeOpenaiBackend (model : String) (context_size : Nat)
    (keys : List (Option String)) (api_base : String) (window_size : Nat) :
    SafeOpenaiBackend :=
  { model := model
    context_size := context_size
    keys := keys
    client := { base_url := api_base }
    window_size := window_size }

/-- Default request used when indexing request lists out of range. -/
def dfltRequest : Request :=
  ⟨⟨0, ""⟩, []⟩

/-- Default result used when indexing result lists out of range. -/
def dfltResult : RerankResult :=
  ⟨⟨0, ""⟩, [], false, none⟩

/-- Default credential used when indexing the pool out of range. -/
def dfltCred : Credential :=
  ⟨none, 0, 0⟩

/-- The three candidates of the demo request of example_usage in
rerank_openrouter.py. -/
def demoCandidates : List Candidate :=
  [⟨"doc1", "Berlin is the capital of Germany.", 0⟩,
   ⟨"doc2", "Beijing is the capital of China.", 0⟩,
   ⟨"doc3", "Paris is the capital of France.", 0⟩]

/-- The demo request of example_usage: the capital-of-France query over the
three candidates. -/
def demoRequest : Request :=
  ⟨⟨1, "What is the capital of France?"⟩, demoCandidates⟩

/-- Canned deterministic backend of the end-to-end scenario: every call
answers with the ranking Paris (3) above Berlin (1) above Beijing (2). -/
def cannedBackend : String → Except BackendError String :=
  fun _ => Except.ok "[3] > [1] > [2]"

/-- The windowing configuration of the demo: window_size 20 (a single window
for three candidates), stride 10, one pass. -/
def demoConfig : Config :=
  ⟨20, 10, 1⟩

/-- A small concrete two-credential pool used to witness the pool
theorems: base delay 4, cap 100, max wait 2. -/
def demoPool : CredentialPool :=
  ⟨[⟨some "key-a", 0, 0⟩, ⟨some "key-b", 5, 1⟩], 0, 4, 100, 2⟩

/-- Number of transient failures (network or rate limit) in an attempt
trace. -/
def transientCount (tr : List AttemptOutcome) : Nat :=
  List.countP (fun a =>
    decide (a = AttemptOutcome.failure BackendError.networkError ∨
      a = AttemptOutcome.failure BackendError.rateLimitError)) tr

/-- Number of authentication failures in an attempt trace. -/
def authCount (tr : List AttemptOutcome) : Nat :=
  List.countP
    (fun a => decide (a = AttemptOutcome.failure BackendError.authError)) tr

/-- Number of malformed-response failures in an attempt trace. -/
def malformedCount (tr : List AttemptOutcome) : Nat :=
  List.countP (fun a =>
    decide (a = AttemptOutcome.failure BackendError.malformedResponseError)) tr

theorem mem_dedupFirstAux {x : Nat} :
    ∀ (seen l : List Nat), x ∈ dedupFirstAux seen l → x ∈ l ∧ x ∉ seen := by
  intro seen l
  induction l generalizing seen with
  | nil => simp [dedupFirstAux]
  | cons a t ih =>
    intro hx
    by_cases ha : a ∈ seen
    · rw [dedupFirstAux, if_pos ha] at hx
      have := ih seen hx
      exact ⟨List.mem_cons_of_mem _ this.1, this.2⟩
    · rw [dedupFirstAux, if_neg ha] at hx
      rcases List.mem_cons.mp hx with rfl | hx
      · exact ⟨List.mem_cons_self _ _, ha⟩
      · have := ih (a :: seen) hx
        refine ⟨List.mem_cons_of_mem _ this.1, fun hs => this.2 ?_⟩
        exact List.mem_cons_of_mem _ hs

theorem dedupFirstAux_nodup : ∀ (seen l : List Nat), (dedupFirstAux seen l).Nodup := by
  intro seen l
  induction l generalizing seen with
  | nil => simp [dedupFirstAux]
  | cons a t ih =>
    by_cases ha : a ∈ seen
    · rw [dedupFirstAux, if_pos ha]; exact ih seen
    · rw [dedupFirstAux, if_neg ha]
      refine List.nodup_cons.mpr ⟨fun hmem => ?_, ih (a :: seen)⟩
      exact (mem_dedupFirstAux _ _ hmem).2 (List.mem_cons_self _ _)

theorem usableTokens_nodup (raw : String) (ids : List Nat) :
    (usableTokens raw ids).Nodup :=
  dedupFirstAux_nodup _ _

theorem usableTokens_subset (raw : String) (ids : List Nat) {x : Nat}
    (h : x ∈ usableTokens raw ids) : x ∈ ids := by
  have h1 := (mem_dedupFirstAux _ _ h).1
  have h2 := (List.mem_filter.mp h1).2
  exact of_decide_eq_true h2

theorem append_filter_not_mem_perm (u ids : List Nat) (hni : ids.Nodup)
    (hnu : u.Nodup) (hsub : ∀ x ∈ u, x ∈ ids) :
    (u ++ ids.filter (fun x => decide (x ∉ u))).Perm ids := by
  have hdisj : u.Disjoint (ids.filter (fun x => decide (x ∉ u))) := by
    intro a hau haf
    exact (of_decide_eq_true (List.mem_filter.mp haf).2) hau
  have hnodup : (u ++ ids.filter (fun x => decide (x ∉ u))).Nodup :=
    hnu.append (hni.filter _) hdisj
  refine (List.perm_ext_iff_of_nodup hnodup hni).mpr fun a => ?_
  simp only [List.mem_append, List.mem_filter, decide_eq_true_eq]
  constructor
  · rintro (hau | ⟨hai, _⟩)
    · exact hsub a hau
    · exact hai
  · intro hai
    by_cases hau : a ∈ u
    · exact Or.inl hau
    · exact Or.inr ⟨hai, hau⟩

/-- C4: for every raw model text and every duplicate-free window identifier
set, a successfully parsed RankingResult is a complete bijection over the
window identifiers: its permutation is a permutation of the window's
identifiers (so nothing outside the window appears and nothing is
dropped), and it consists of a duplicate-free parsed prefix of window
identifiers followed by exactly the identifiers absent from the parsed
output, in their original relative order. -/
theorem parse_complete_bijection (raw : String) (ids : List Nat)
    (r : RankingResult) (hn : ids.Nodup) (h : parse raw ids = Except.ok r) :
    r.permutation.Perm ids ∧
    ∃ p, r.permutation = p ++ ids.filter (fun x => decide (x ∉ p)) ∧
      p.Nodup ∧ ∀ x ∈ p, x ∈ ids := by
  rw [parse] at h
  by_cases hu : usableTokens raw ids = []
  · rw [if_pos hu] at h
    exact absurd h (by simp)
  · rw [if_neg hu] at h
    have hr : r = ⟨usableTokens raw ids ++
        ids.filter (fun x => decide (x ∉ usableTokens raw ids))⟩ := by
      cases h; rfl
    subst hr
    refine ⟨?_, usableTokens raw ids, rfl, usableTokens_nodup raw ids,
      fun x hx => usableTokens_subset raw ids hx⟩
    exact append_filter_not_mem_perm _ _ hn (usableTokens_nodup raw ids)
      (fun x hx => usableTokens_subset raw ids hx)

/-- C4 witness: at the raw text of the end-to-end scenario over the window
identifiers 1..3, parsing succeeds and the theorem's conclusions hold. -/
theorem parse_complete_bijection_witness :
    ([3, 1, 2] : List Nat).Perm [1, 2, 3] ∧
    ∃ p, ([3, 1, 2] : List Nat) = p ++ [1, 2, 3].filter (fun x => decide (x ∉ p)) ∧
      p.Nodup ∧ ∀ x ∈ p, x ∈ [1, 2, 3] :=
  parse_complete_bijection "[3] > [1] > [2]" [1, 2, 3] ⟨[3, 1, 2]⟩
    (by decide) (by rfl)

/-- C5: parsing fails, necessarily with UnparsableError, exactly when zero
usable tokens are extracted from the raw text; with at least one usable
token it returns a RankingResult. -/
theorem parse_fails_iff_zero_usable (raw : String) (ids : List Nat) :
    (parse raw ids = Except.error ParseError.unparsableError ↔
      usableTokens raw ids = []) ∧
    (usableTokens raw ids ≠ [] → ∃ r, parse raw ids = Except.ok r) := by
  constructor
  · constructor
    · intro h
      by_contra hu
      rw [parse, if_neg hu] at h
      exact absurd h (by simp)
    · intro hu
      rw [parse, if_pos hu]
  · intro hu
    exact ⟨_, by rw [parse, if_neg hu]⟩

/-- C5 witness: a text with no usable token fails with UnparsableError, and
the scenario text with three usable tokens parses successfully. -/
theorem parse_fails_iff_zero_usable_witness :
    (parse "no usable markers here" [1, 2, 3] =
        Except.error ParseError.unparsableError ↔
      usableTokens "no usable markers here" [1, 2, 3] = []) ∧
    (usableTokens "[3] > [1] > [2]" [1, 2, 3] ≠ [] →
      ∃ r, parse "[3] > [1] > [2]" [1, 2, 3] = Except.ok r) :=
  ⟨(parse_fails_iff_zero_usable "no usable markers here" [1, 2, 3]).1,
   (parse_fails_iff_zero_usable "[3] > [1] > [2]" [1, 2, 3]).2⟩

theorem parse_ok_perm (raw : String) (ids : List Nat) (r : RankingResult)
    (hn : ids.Nodup) (h : parse raw ids = Except.ok r) :
    r.permutation.Perm ids := by
  rw [parse] at h
  by_cases hu : usableTokens raw ids = []
  · rw [if_pos hu] at h
    exact absurd h (by simp)
  · rw [if_neg hu] at h
    have hr : r = ⟨usableTokens raw ids ++
        ids.filter (fun x => decide (x ∉ usableTokens raw ids))⟩ := by
      cases h; rfl
    subst hr
    exact append_filter_not_mem_perm _ _ hn (usableTokens_nodup raw ids)
      (fun x hx => usableTokens_subset raw ids hx)

theorem range_filterMap_get {α : Type} :
    ∀ (l : List α), (List.range l.length).filterMap l.get? = l := by
  intro l
  induction l with
  | nil => simp
  | cons a t ih =>
    rw [List.length_cons, List.range_succ_eq_map, List.filterMap_cons,
      List.get?_cons_zero, List.filterMap_map]
    have hcongr : ∀ x ∈ List.range t.length,
        ((a :: t).get? ∘ Nat.succ) x = t.get? x := by
      intro x _
      simp [Function.comp, List.get?_cons_succ]
    rw [List.filterMap_congr hcongr, ih]

theorem range'_one_filterMap_get {α : Type} (l : List α) :
    (List.range' 1 l.length).filterMap (fun i => l.get? (i - 1)) = l := by
  rw [List.range'_eq_map_range, List.filterMap_map]
  have hcongr : ∀ x ∈ List.range l.length,
      ((fun i => l.get? (i - 1)) ∘ (fun x => 1 + x)) x = l.get? x := by
    intro x _
    simp only [Function.comp]
    congr 1
    omega
  rw [List.filterMap_congr hcongr, range_filterMap_get]

theorem applyRankingResult_perm (window : List Candidate) (r : RankingResult)
    (h : r.permutation.Perm (List.range' 1 window.length)) :
    (applyRankingResult window r).Perm window := by
  have h2 := h.filterMap (fun i => window.get? (i - 1))
  rw [applyRankingResult]
  rw [range'_one_filterMap_get] at h2
  exact h2

theorem scoreWindow_perm (b : String → Except BackendError String)
    (q : Query) (w : List Candidate) : (scoreWindow b q w).1.Perm w := by
  rw [scoreWindow]
  split
  · exact List.Perm.refl _
  · split
    · exact List.Perm.refl _
    · rename_i r hp
      exact applyRankingResult_perm w r
        (parse_ok_perm _ _ r (List.nodup_range' 1 w.length) hp)

theorem spliceWindow_perm
    (f : List Candidate → List Candidate × Bool × Option BackendError)
    (hf : ∀ w, (f w).1.Perm w) (cands : List Candidate) (start len : Nat) :
    (spliceWindow f cands start len).1.Perm cands := by
  rw [spliceWindow]
  have hsplit : cands = cands.take start ++
      ((cands.drop start).take len ++ (cands.drop start).drop len) := by
    rw [List.take_append_drop, List.take_append_drop]
  calc (cands.take start ++ (f ((cands.drop start).take len)).1 ++
          (cands.drop start).drop len).Perm
        (cands.take start ++ ((cands.drop start).take len ++
          (cands.drop start).drop len)) := by
        rw [List.append_assoc]
        exact (List.Perm.refl _).append ((hf _).append (List.Perm.refl _))
    _ = cands := hsplit.symm

theorem foldl_windows_perm (b : String → Except BackendError String)
    (q : Query) (cfg : Config) :
    ∀ (starts : List Nat) (st : List Candidate × Bool × Option BackendError),
    ((starts.foldl (fun acc start =>
        let r := spliceWindow (scoreWindow b q) acc.1 start cfg.window_size
        (r.1, acc.2.1 || r.2.1, acc.2.2 <|> r.2.2)) st).1).Perm st.1 := by
  intro starts
  induction starts with
  | nil => intro st; exact List.Perm.refl _
  | cons s ss ih =>
    intro st
    rw [List.foldl_cons]
    exact (ih _).trans (spliceWindow_perm _ (scoreWindow_perm b q) st.1 s _)

theorem onePass_perm (b : String → Except BackendError String) (q : Query)
    (cfg : Config) (cands : List Candidate) :
    (onePass b q cfg cands).1.Perm cands :=
  foldl_windows_perm b q cfg _ (cands, false, none)

theorem runPasses_perm (b : String → Except BackendError String) (q : Query)
    (cfg : Config) :
    ∀ (n : Nat) (st : List Candidate × Bool × Option BackendError),
    ((runPasses b q cfg n st).1).Perm st.1 := by
  intro n
  induction n with
  | zero => intro st; exact List.Perm.refl _
  | succ m ih =>
    intro st
    rw [runPasses]
    exact (ih _).trans (onePass_perm b q cfg st.1)

theorem assignScores_map_proj :
    ∀ (n : Nat) (l : List Candidate),
    (assignScores n l).map (fun c => (c.docid, c.doc)) =
      l.map (fun c => (c.docid, c.doc)) := by
  intro n l
  induction l generalizing n with
  | nil => rfl
  | cons a t ih =>
    rw [assignScores, List.map_cons, List.map_cons, ih]

theorem rerankRequest_proj_perm (b : String → Except BackendError String)
    (cfg : Config) (req : Request) :
    ((rerankRequest b cfg req).candidates.map (fun c => (c.docid, c.doc))).Perm
      (req.candidates.map (fun c => (c.docid, c.doc))) := by
  rw [rerankRequest]
  show ((finalizeScores _).map _).Perm _
  rw [finalizeScores, assignScores_map_proj]
  exact (runPasses_perm b req.query cfg cfg.num_passes
    (req.candidates, false, none)).map _

/-- C1: for every backend behavior, every window_size/stride/num_passes
configuration and every request of the batch, the candidates of the
result returned by rerank_batch are, as a multiset of
(identifier, content) pairs, exactly the candidates of the input Request:
no identifier lost, none duplicated, none injected; only order and score
change. -/
theorem rerank_batch_preserves_candidate_multiset
    (b : String → Except BackendError String) (cfg : Config)
    (reqs : List Request) (j : Nat) (h : j < reqs.length) :
    (((rerankBatch b cfg reqs).getD j dfltResult).candidates.map
        (fun c => (c.docid, c.doc))).Perm
      ((reqs.getD j dfltRequest).candidates.map (fun c => (c.docid, c.doc))) := by
  rw [List.getD_eq_getElem?_getD, List.getD_eq_getElem?_getD, rerankBatch,
    List.getElem?_map, List.getElem?_eq_getElem h]
  exact rerankRequest_proj_perm b cfg reqs[j]

/-- C1 witness: at the demo batch under the canned backend and the demo
configuration, the returned candidate multiset equals the input one. -/
theorem rerank_batch_preserves_candidate_multiset_witness :
    (((rerankBatch cannedBackend demoConfig [demoRequest]).getD 0
        dfltResult).candidates.map (fun c => (c.docid, c.doc))).Perm
      (([demoRequest].getD 0 dfltRequest).candidates.map
        (fun c => (c.docid, c.doc))) :=
  rerank_batch_preserves_candidate_multiset cannedBackend demoConfig
    [demoRequest] 0 (by decide)

/-- C2: on the demo request (capital-of-France query; candidates Berlin,
Beijing, Paris) under the single-window configuration with window_size 20
and the canned backend ranking Paris above Berlin above Beijing,
rerank_batch returns the candidates in the order Paris (doc3), Berlin
(doc1), Beijing (doc2) with the strictly decreasing scores 3, 2, 1. -/
theorem endToEnd_capital_of_france_scenario :
    (rerankBatch cannedBackend demoConfig [demoRequest]).map
        (fun r => r.candidates.map (fun c => c.docid)) =
      [["doc3", "doc1", "doc2"]] ∧
    (rerankBatch cannedBackend demoConfig [demoRequest]).map
        (fun r => r.candidates.map (fun c => c.score)) = [[3, 2, 1]] ∧
    List.Chain' (fun a b : Int => b < a) [3, 2, 1] := by
  refine ⟨rfl, rfl, ?_⟩
  rw [List.chain'_cons, List.chain'_cons]
  exact ⟨by norm_num, by norm_num, List.chain'_singleton 1⟩

theorem lookup_map_pair (g : Nat → RerankResult) :
    ∀ (l : List Nat) (i : Nat), i ∈ l →
    (l.map (fun j => (j, g j))).lookup i = some (g i) := by
  intro l
  induction l with
  | nil => simp
  | cons a t ih =>
    intro i hi
    rw [List.map_cons]
    by_cases h : i = a
    · subst h
      simp [List.lookup]
    · rcases List.mem_cons.mp hi with rfl | hmem
      · exact absurd rfl h
      · have hba : (i == a) = false := beq_eq_false_iff_ne.mpr h
        simp only [List.lookup, hba]
        exact ih i hmem

theorem filterMap_get_pair_eq_map (f : Request → RerankResult)
    (reqs : List Request) :
    ∀ (l : List Nat), (∀ j ∈ l, j < reqs.length) →
    l.filterMap (fun j => (reqs.get? j).map (fun r => (j, f r))) =
      l.map (fun j => (j, f (reqs.getD j dfltRequest))) := by
  intro l
  induction l with
  | nil => intro _; rfl
  | cons a t ih =>
    intro hl
    have ha : a < reqs.length := hl a (List.mem_cons_self a t)
    rw [List.filterMap_cons, List.map_cons, List.get?_eq_getElem?,
      List.getElem?_eq_getElem ha]
    rw [ih (fun j hj => hl j (List.mem_cons_of_mem a hj))]
    rw [List.getD_eq_getElem?_getD, List.getElem?_eq_getElem ha]
    rfl

theorem map_getD_range {α β : Type} (f : α → β) (d : α) :
    ∀ (l : List α), (List.range l.length).map (fun i => f (l.getD i d)) =
      l.map f := by
  intro l
  induction l with
  | nil => rfl
  | cons a t ih =>
    rw [List.length_cons, List.range_succ_eq_map, List.map_cons,
      List.getD_cons_zero, List.map_map, List.map_cons]
    congr 1

theorem rerankBatchScheduled_eq_batch (b : String → Except BackendError String)
    (cfg : Config) (reqs : List Request) (sched : List Nat)
    (h : sched.Perm (List.range reqs.length)) :
    rerankBatchScheduled b cfg reqs sched = rerankBatch b cfg reqs := by
  have hmem : ∀ j ∈ sched, j < reqs.length := by
    intro j hj
    exact List.mem_range.mp (h.mem_iff.mp hj)
  rw [rerankBatchScheduled,
    filterMap_get_pair_eq_map (rerankRequest b cfg) reqs sched hmem]
  have hlookup : ∀ i ∈ List.range reqs.length,
      (sched.map (fun j => (j, rerankRequest b cfg (reqs.getD j dfltRequest)))).lookup i
        = some (rerankRequest b cfg (reqs.getD i dfltRequest)) := by
    intro i hi
    exact lookup_map_pair _ sched i (h.mem_iff.mpr hi)
  rw [List.filterMap_congr hlookup]
  have : (List.range reqs.length).filterMap
      (fun i => some (rerankRequest b cfg (reqs.getD i dfltRequest))) =
      (List.range reqs.length).map
      (fun i => rerankRequest b cfg (reqs.getD i dfltRequest)) := by
    rw [← List.filterMap_eq_map]
    rfl
  rw [this, rerankBatch, map_getD_range]

/-- C3: for every list of Requests, the results of rerank_batch appear in
the same order as the input requests regardless of the completion order
of the individual requests: batch execution under any completion schedule
(any permutation of the request indices) collects the same result list as
the in-order batch. -/
theorem rerank_batch_output_order_matches_input
    (b : String → Except BackendError String) (cfg : Config)
    (reqs : List Request) (sched : List Nat)
    (h : sched.Perm (List.range reqs.length)) :
    rerankBatchScheduled b cfg reqs sched = rerankBatch b cfg reqs :=
  rerankBatchScheduled_eq_batch b cfg reqs sched h

/-- C3 witness: a two-request batch completed in reversed order still
returns the results in input order. -/
theorem rerank_batch_output_order_matches_input_witness :
    rerankBatchScheduled cannedBackend demoConfig [demoRequest, demoRequest]
        [1, 0] =
      rerankBatch cannedBackend demoConfig [demoRequest, demoRequest] :=
  rerank_batch_output_order_matches_input cannedBackend demoConfig
    [demoRequest, demoRequest] [1, 0] (by decide)

/-- C9: for a fixed deterministic canned backend, identical configuration
and identical input, any two runs of the engine (any two completion
schedules over the request indices) produce identical output orderings. -/
theorem scheduled_runs_deterministic
    (b : String → Except BackendError String) (cfg : Config)
    (reqs : List Request) (schedA schedB : List Nat)
    (hA : schedA.Perm (List.range reqs.length))
    (hB : schedB.Perm (List.range reqs.length)) :
    rerankBatchScheduled b cfg reqs schedA =
      rerankBatchScheduled b cfg reqs schedB := by
  rw [rerankBatchScheduled_eq_batch b cfg reqs schedA hA,
    rerankBatchScheduled_eq_batch b cfg reqs schedB hB]

/-- C9 witness: two runs of the demo batch under different completion
schedules produce the identical result list. -/
theorem scheduled_runs_deterministic_witness :
    rerankBatchScheduled cannedBackend demoConfig [demoRequest, demoRequest]
        [0, 1] =
      rerankBatchScheduled cannedBackend demoConfig [demoRequest, demoRequest]
        [1, 0] :=
  scheduled_runs_deterministic cannedBackend demoConfig
    [demoRequest, demoRequest] [0, 1] [1, 0] (by decide) (by decide)

theorem windowStartsAux_ne_nil :
    ∀ (s start fuel : Nat), windowStartsAux s start fuel ≠ [] := by
  intro s start fuel
  cases fuel with
  | zero => simp [windowStartsAux]
  | succ m =>
    rw [windowStartsAux]
    split <;> simp

theorem windowStarts_ne_nil (n w s : Nat) : windowStarts n w s ≠ [] := by
  rw [windowStarts]
  split
  · simp
  · exact windowStartsAux_ne_nil s (n - w) n

theorem foldl_preserves_flags
    (g : List Candidate → Nat → List Candidate × Bool × Option BackendError) :
    ∀ (starts : List Nat) (st : List Candidate × Bool × Option BackendError)
      (e : BackendError), st.2.1 = true → st.2.2 = some e →
    ((starts.foldl (fun acc start =>
        let r := g acc.1 start
        (r.1, acc.2.1 || r.2.1, acc.2.2 <|> r.2.2)) st).2.1 = true ∧
     (starts.foldl (fun acc start =>
        let r := g acc.1 start
        (r.1, acc.2.1 || r.2.1, acc.2.2 <|> r.2.2)) st).2.2 = some e) := by
  intro starts
  induction starts with
  | nil => intro st e h1 h2; exact ⟨h1, h2⟩
  | cons a t ih =>
    intro st e h1 h2
    rw [List.foldl_cons]
    exact ih _ e (by simp [h1]) (by simp [h2])

theorem spliceWindow_fail_flags (err : BackendError) (q : Query)
    (cands : List Candidate) (start len : Nat) :
    (spliceWindow (scoreWindow (fun _ => Except.error err) q) cands start
        len).2.1 = true ∧
    (spliceWindow (scoreWindow (fun _ => Except.error err) q) cands start
        len).2.2 = some err :=
  ⟨rfl, rfl⟩

theorem onePass_fail_flags (err : BackendError) (q : Query) (cfg : Config)
    (cands : List Candidate) :
    (onePass (fun _ => Except.error err) q cfg cands).2.1 = true ∧
    (onePass (fun _ => Except.error err) q cfg cands).2.2 = some err := by
  obtain ⟨a, l, hal⟩ := List.exists_cons_of_ne_nil
    (windowStarts_ne_nil cands.length cfg.window_size cfg.stride)
  rw [onePass, hal, List.foldl_cons]
  refine foldl_preserves_flags
    (fun c s => spliceWindow (scoreWindow (fun _ => Except.error err) q) c s
      cfg.window_size) l _ err ?_ ?_
  · have h1 := (spliceWindow_fail_flags err q cands a cfg.window_size).1
    simp [h1]
  · have h2 := (spliceWindow_fail_flags err q cands a cfg.window_size).2
    simp [h2]

theorem runPasses_preserve_flags (b : String → Except BackendError String)
    (q : Query) (cfg : Config) :
    ∀ (n : Nat) (st : List Candidate × Bool × Option BackendError)
      (e : BackendError), st.2.1 = true → st.2.2 = some e →
    ((runPasses b q cfg n st).2.1 = true ∧
     (runPasses b q cfg n st).2.2 = some e) := by
  intro n
  induction n with
  | zero => intro st e h1 h2; exact ⟨h1, h2⟩
  | succ m ih =>
    intro st e h1 h2
    rw [runPasses]
    exact ih _ e (by simp [h1]) (by simp [h2])

/-- C8: one request's terminal failure never aborts sibling requests in the
same rerank_batch call. The result at any batch position depends only on
the request at that position (so whatever happens to other requests,
including total failure, leaves it unchanged), and a request whose every
backend call fails terminally still gets a result enumerating every
original candidate, with the degraded flag set and the error kind
attached. -/
theorem batch_failure_isolation (b : String → Except BackendError String)
    (cfg : Config) (reqs reqsB : List Request) (j : Nat)
    (h : reqs[j]? = reqsB[j]?) (req : Request) (err : BackendError)
    (hp : 1 ≤ cfg.num_passes) :
    (rerankBatch b cfg reqs)[j]? = (rerankBatch b cfg reqsB)[j]? ∧
    ((rerankRequest (fun _ => Except.error err) cfg req).candidates.map
        (fun c => (c.docid, c.doc))).Perm
      (req.candidates.map (fun c => (c.docid, c.doc))) ∧
    (rerankRequest (fun _ => Except.error err) cfg req).degraded = true ∧
    (rerankRequest (fun _ => Except.error err) cfg req).errorKind = some err := by
  have hflags : (runPasses (fun _ => Except.error err) req.query cfg
      cfg.num_passes (req.candidates, false, none)).2.1 = true ∧
      (runPasses (fun _ => Except.error err) req.query cfg
      cfg.num_passes (req.candidates, false, none)).2.2 = some err := by
    cases hnp : cfg.num_passes with
    | zero => omega
    | succ m =>
      rw [runPasses]
      refine runPasses_preserve_flags _ _ _ m _ err ?_ ?_
      · have h1 := (onePass_fail_flags err req.query cfg req.candidates).1
        simp [h1]
      · have h2 := (onePass_fail_flags err req.query cfg req.candidates).2
        simp [h2]
  refine ⟨?_, rerankRequest_proj_perm _ cfg req, hflags.1, hflags.2⟩
  rw [rerankBatch, rerankBatch, List.getElem?_map, List.getElem?_map, h]

/-- C8 witness: with a one-request healthy batch and an equal batch, the
shared position agrees; and the demo request under an always-failing
backend still enumerates all three candidates, degraded, with the network
error attached. -/
theorem batch_failure_isolation_witness :
    (rerankBatch cannedBackend demoConfig [demoRequest])[0]? =
      (rerankBatch cannedBackend demoConfig [demoRequest])[0]? ∧
    ((rerankRequest (fun _ => Except.error BackendError.networkError)
        demoConfig demoRequest).candidates.map
        (fun c => (c.docid, c.doc))).Perm
      (demoRequest.candidates.map (fun c => (c.docid, c.doc))) ∧
    (rerankRequest (fun _ => Except.error BackendError.networkError)
        demoConfig demoRequest).degraded = true ∧
    (rerankRequest (fun _ => Except.error BackendError.networkError)
        demoConfig demoRequest).errorKind = some BackendError.networkError :=
  batch_failure_isolation cannedBackend demoConfig [demoRequest] [demoRequest]
    0 rfl demoRequest BackendError.networkError (by decide)

theorem release_rateLimited_getD (p : CredentialPool) (i now : Nat)
    (hi : i < p.creds.length) :
    (p.release i now ReleaseOutcome.rateLimited).creds.getD i dfltCred =
      { p.creds.getD i dfltCred with
        failures := (p.creds.getD i dfltCred).failures + 1,
        cooldownUntil :=
          now + min (p.baseDelay * 2 ^ (p.creds.getD i dfltCred).failures)
            p.capDelay } := by
  rw [CredentialPool.release]
  simp [List.getD_eq_getElem?_getD, List.getElem?_modify,
    List.getElem?_eq_getElem hi]

theorem release_success_getD (p : CredentialPool) (i now : Nat)
    (hi : i < p.creds.length) :
    ((p.release i now ReleaseOutcome.success).creds.getD i dfltCred).failures
      = 0 := by
  rw [CredentialPool.release]
  simp [List.getD_eq_getElem?_getD, List.getElem?_modify,
    List.getElem?_eq_getElem hi]

theorem acquire_ok_bounds (q : CredentialPool) (t j tA : Nat)
    (q2 : CredentialPool) (h : q.acquire t = Except.ok (j, tA, q2)) :
    (q.creds.getD j dfltCred).cooldownUntil ≤ tA ∧ tA ≤ t + q.maxWait := by
  rw [CredentialPool.acquire] at h
  cases hfind : findAvailable q.creds t (rrOrder q.rrIndex q.creds.length) with
  | some i =>
    simp only [hfind] at h
    simp only [Except.ok.injEq, Prod.mk.injEq] at h
    obtain ⟨h1, h2, _⟩ := h
    rw [← h1, ← h2]
    have hp := List.find?_some hfind
    cases hc : q.creds.get? i with
    | none => rw [hc] at hp; exact absurd hp (by simp)
    | some c =>
      rw [hc] at hp
      have hle : c.cooldownUntil ≤ t := of_decide_eq_true hp
      rw [List.getD_eq_getElem?_getD, ← List.get?_eq_getElem?, hc]
      exact ⟨hle, Nat.le_add_right t q.maxWait⟩
  | none =>
    simp only [hfind] at h
    by_cases he : minCooldown q.creds ≤ t + q.maxWait
    · rw [if_pos he] at h
      cases hfind2 : findAvailable q.creds (minCooldown q.creds)
          (rrOrder q.rrIndex q.creds.length) with
      | some i =>
        simp only [hfind2] at h
        simp only [Except.ok.injEq, Prod.mk.injEq] at h
        obtain ⟨h1, h2, _⟩ := h
        rw [← h1, ← h2]
        have hp := List.find?_some hfind2
        cases hc : q.creds.get? i with
        | none => rw [hc] at hp; exact absurd hp (by simp)
        | some c =>
          rw [hc] at hp
          have hle : c.cooldownUntil ≤ minCooldown q.creds :=
            of_decide_eq_true hp
          rw [List.getD_eq_getElem?_getD, ← List.get?_eq_getElem?, hc]
          exact ⟨hle, he⟩
      | none =>
        simp only [hfind2] at h
        exact absurd h (by simp)
    · rw [if_neg he] at h
      exact absurd h (by simp)

theorem acquire_exhausted (q : CredentialPool) (t : Nat)
    (hall : ∀ c ∈ q.creds, t + q.maxWait < c.cooldownUntil) :
    q.acquire t = Except.error PoolError.exhaustedError := by
  have hnone : ∀ (u : Nat), u ≤ t + q.maxWait →
      findAvailable q.creds u (rrOrder q.rrIndex q.creds.length) = none := by
    intro u hu
    rw [findAvailable]
    apply List.find?_eq_none.mpr
    intro x _
    cases hc : q.creds.get? x with
    | none => simp [hc]
    | some c =>
      have hcn := hall c (List.get?_mem hc)
      simp only [hc, decide_eq_true_eq]
      omega
  rw [CredentialPool.acquire]
  rw [hnone t (Nat.le_add_right t q.maxWait)]
  by_cases he : minCooldown q.creds ≤ t + q.maxWait
  · rw [if_pos he, hnone (minCooldown q.creds) he]
  · rw [if_neg he]

/-- C6: after a rate-limit failure outcome on credential i, that
credential's cooldown is set to the exponential backoff (base delay times
2 to the consecutive-failure count, capped) from the release instant and
its failure count is bumped (success resets it to zero); any successful
acquire on the resulting pool hands out a credential only at an instant
at which its cooldown has elapsed and waits at most the configured max
wait; and when every credential is in cooldown beyond the max wait,
acquire fails with ExhaustedError instead of blocking indefinitely. -/
theorem credential_cooldown_and_exhaustion (p : CredentialPool)
    (i now t j tA : Nat) (q2 : CredentialPool) (hi : i < p.creds.length) :
    ((p.release i now ReleaseOutcome.rateLimited).creds.getD i
        dfltCred).cooldownUntil =
      now + min (p.baseDelay * 2 ^ (p.creds.getD i dfltCred).failures)
        p.capDelay ∧
    ((p.release i now ReleaseOutcome.rateLimited).creds.getD i
        dfltCred).failures = (p.creds.getD i dfltCred).failures + 1 ∧
    ((p.release i now ReleaseOutcome.success).creds.getD i
        dfltCred).failures = 0 ∧
    ((p.release i now ReleaseOutcome.rateLimited).acquire t =
        Except.ok (j, tA, q2) →
      (((p.release i now ReleaseOutcome.rateLimited).creds.getD j
          dfltCred).cooldownUntil ≤ tA ∧ tA ≤ t + p.maxWait)) ∧
    ((∀ c ∈ (p.release i now ReleaseOutcome.rateLimited).creds,
        t + p.maxWait < c.cooldownUntil) →
      (p.release i now ReleaseOutcome.rateLimited).acquire t =
        Except.error PoolError.exhaustedError) := by
  refine ⟨?_, ?_, release_success_getD p i now hi, ?_, ?_⟩
  · rw [release_rateLimited_getD p i now hi]
  · rw [release_rateLimited_getD p i now hi]
  · intro h
    exact acquire_ok_bounds _ t j tA q2 h
  · intro hall
    exact acquire_exhausted _ t hall

/-- C6 witness: at the concrete two-credential demo pool, credential 0
released with a rate-limit outcome at instant 10 enters cooldown until
14 (base delay 4 times 2 to the 0), and the acquire guarantees hold at
the instantiated arguments. -/
theorem credential_cooldown_and_exhaustion_witness :
    ((demoPool.release 0 10 ReleaseOutcome.rateLimited).creds.getD 0
        dfltCred).cooldownUntil =
      10 + min (demoPool.baseDelay * 2 ^
        (demoPool.creds.getD 0 dfltCred).failures) demoPool.capDelay ∧
    ((demoPool.release 0 10 ReleaseOutcome.rateLimited).creds.getD 0
        dfltCred).failures = (demoPool.creds.getD 0 dfltCred).failures + 1 ∧
    ((demoPool.release 0 10 ReleaseOutcome.success).creds.getD 0
        dfltCred).failures = 0 ∧
    ((demoPool.release 0 10 ReleaseOutcome.rateLimited).acquire 11 =
        Except.ok (1, 11, demoPool) →
      (((demoPool.release 0 10 ReleaseOutcome.rateLimited).creds.getD 1
          dfltCred).cooldownUntil ≤ 11 ∧ 11 ≤ 11 + demoPool.maxWait)) ∧
    ((∀ c ∈ (demoPool.release 0 10 ReleaseOutcome.rateLimited).creds,
        11 + demoPool.maxWait < c.cooldownUntil) →
      (demoPool.release 0 10 ReleaseOutcome.rateLimited).acquire 11 =
        Except.error PoolError.exhaustedError) :=
  credential_cooldown_and_exhaustion demoPool 0 10 11 1 11 demoPool
    (by decide)

theorem completeAux_spec (oracle : Nat → AttemptOutcome) (k r m : Nat) :
    (completeAux oracle k r m).1.length ≤ r + m + 1 ∧
    malformedCount (completeAux oracle k r m).1 ≤ m + 1 ∧
    (AttemptOutcome.failure BackendError.authError ∈
        (completeAux oracle k r m).1 →
      (completeAux oracle k r m).2 = Except.error BackendError.authError ∧
      authCount (completeAux oracle k r m).1 = 1) ∧
    ((completeAux oracle k r m).2 = Except.error BackendError.networkError ∨
     (completeAux oracle k r m).2 = Except.error BackendError.rateLimitError →
      transientCount (completeAux oracle k r m).1 = r + 1) := by
  induction k, r, m using completeAux.induct oracle with
  | case1 k r m t h =>
    have hc : completeAux oracle k r m =
        ([AttemptOutcome.success t], Except.ok t) := by
      rw [completeAux, h]
    rw [hc]
    refine ⟨by simp, by simp [malformedCount], ?_, ?_⟩
    · intro hmem
      simp at hmem
    · intro hres
      simp at hres
  | case2 k r m h =>
    have hc : completeAux oracle k r m =
        ([AttemptOutcome.failure BackendError.authError],
         Except.error BackendError.authError) := by
      rw [completeAux, h]
    rw [hc]
    refine ⟨by simp, by simp [malformedCount], ?_, ?_⟩
    · intro _
      exact ⟨rfl, by simp [authCount]⟩
    · intro hres
      rcases hres with hres | hres <;> simp at hres
  | case3 k m h =>
    have hc : completeAux oracle k 0 m =
        ([AttemptOutcome.failure BackendError.networkError],
         Except.error BackendError.networkError) := by
      rw [completeAux, h]
      split <;> rename_i heq
      · exact absurd heq (by simp)
      · exact absurd heq (by simp)
      · rw [dif_pos rfl]
      · exact absurd heq (by simp)
      · exact absurd heq (by simp)
    rw [hc]
    refine ⟨by simp, by simp [malformedCount], ?_, ?_⟩
    · intro hmem
      simp at hmem
    · intro _
      simp [transientCount]
  | case4 k r m h hr ih =>
    have hc : completeAux oracle k r m =
        (AttemptOutcome.failure BackendError.networkError ::
          (completeAux oracle (k + 1) (r - 1) m).1,
         (completeAux oracle (k + 1) (r - 1) m).2) := by
      rw [completeAux, h]
      split <;> rename_i heq
      · exact absurd heq (by simp)
      · exact absurd heq (by simp)
      · rw [dif_neg hr]
      · exact absurd heq (by simp)
      · exact absurd heq (by simp)
    rw [hc]
    obtain ⟨ih1, ih2, ih3, ih4⟩ := ih
    refine ⟨?_, ?_, ?_, ?_⟩
    · simp only [List.length_cons]
      omega
    · have hcnt : malformedCount
          (AttemptOutcome.failure BackendError.networkError ::
            (completeAux oracle (k + 1) (r - 1) m).1) =
          malformedCount (completeAux oracle (k + 1) (r - 1) m).1 := by
        simp [malformedCount, List.countP_cons]
      rw [hcnt]
      exact ih2
    · intro hmem
      have hmem2 : AttemptOutcome.failure BackendError.authError ∈
          (completeAux oracle (k + 1) (r - 1) m).1 := by
        rcases List.mem_cons.mp hmem with heq | hmem2
        · exact absurd heq (by simp)
        · exact hmem2
      refine ⟨(ih3 hmem2).1, ?_⟩
      have hcnt : authCount
          (AttemptOutcome.failure BackendError.networkError ::
            (completeAux oracle (k + 1) (r - 1) m).1) =
          authCount (completeAux oracle (k + 1) (r - 1) m).1 := by
        simp [authCount, List.countP_cons]
      rw [hcnt]
      exact (ih3 hmem2).2
    · intro hres
      have hres2 := ih4 hres
      have hcnt : transientCount
          (AttemptOutcome.failure BackendError.networkError ::
            (completeAux oracle (k + 1) (r - 1) m).1) =
          transientCount (completeAux oracle (k + 1) (r - 1) m).1 + 1 := by
        simp [transientCount, List.countP_cons]
      rw [hcnt, hres2]
      omega
  | case5 k m h =>
    have hc : completeAux oracle k 0 m =
        ([AttemptOutcome.failure BackendError.rateLimitError],
         Except.error BackendError.rateLimitError) := by
      rw [completeAux, h]
      split <;> rename_i heq
      · exact absurd heq (by simp)
      · exact absurd heq (by simp)
      · exact absurd heq (by simp)
      · rw [dif_pos rfl]
      · exact absurd heq (by simp)
    rw [hc]
    refine ⟨by simp, by simp [malformedCount], ?_, ?_⟩
    · intro hmem
      simp at hmem
    · intro _
      simp [transientCount]
  | case6 k r m h hr ih =>
    have hc : completeAux oracle k r m =
        (AttemptOutcome.failure BackendError.rateLimitError ::
          (completeAux oracle (k + 1) (r - 1) m).1,
         (completeAux oracle (k + 1) (r - 1) m).2) := by
      rw [completeAux, h]
      split <;> rename_i heq
      · exact absurd heq (by simp)
      · exact absurd heq (by simp)
      · exact absurd heq (by simp)
      · rw [dif_neg hr]
      · exact absurd heq (by simp)
    rw [hc]
    obtain ⟨ih1, ih2, ih3, ih4⟩ := ih
    refine ⟨?_, ?_, ?_, ?_⟩
    · simp only [List.length_cons]
      omega
    · have hcnt : malformedCount
          (AttemptOutcome.failure BackendError.rateLimitError ::
            (completeAux oracle (k + 1) (r - 1) m).1) =
          malformedCount (completeAux oracle (k + 1) (r - 1) m).1 := by
        simp [malformedCount, List.countP_cons]
      rw [hcnt]
      exact ih2
    · intro hmem
      have hmem2 : AttemptOutcome.failure BackendError.authError ∈
          (completeAux oracle (k + 1) (r - 1) m).1 := by
        rcases List.mem_cons.mp hmem with heq | hmem2
        · exact absurd heq (by simp)
        · exact hmem2
      refine ⟨(ih3 hmem2).1, ?_⟩
      have hcnt : authCount
          (AttemptOutcome.failure BackendError.rateLimitError ::
            (completeAux oracle (k + 1) (r - 1) m).1) =
          authCount (completeAux oracle (k + 1) (r - 1) m).1 := by
        simp [authCount, List.countP_cons]
      rw [hcnt]
      exact (ih3 hmem2).2
    · intro hres
      have hres2 := ih4 hres
      have hcnt : transientCount
          (AttemptOutcome.failure BackendError.rateLimitError ::
            (completeAux oracle (k + 1) (r - 1) m).1) =
          transientCount (completeAux oracle (k + 1) (r - 1) m).1 + 1 := by
        simp [transientCount, List.countP_cons]
      rw [hcnt, hres2]
      omega
  | case7 k r h =>
    have hc : completeAux oracle k r 0 =
        ([AttemptOutcome.failure BackendError.malformedResponseError],
         Except.error BackendError.malformedResponseError) := by
      rw [completeAux, h]
      split <;> rename_i heq
      · exact absurd heq (by simp)
      · exact absurd heq (by simp)
      · exact absurd heq (by simp)
      · exact absurd heq (by simp)
      · rw [dif_pos rfl]
    rw [hc]
    refine ⟨by simp, by simp [malformedCount], ?_, ?_⟩
    · intro hmem
      simp at hmem
    · intro hres
      rcases hres with hres | hres <;> simp at hres
  | case8 k r m h hm ih =>
    have hc : completeAux oracle k r m =
        (AttemptOutcome.failure BackendError.malformedResponseError ::
          (completeAux oracle (k + 1) r (m - 1)).1,
         (completeAux oracle (k + 1) r (m - 1)).2) := by
      rw [completeAux, h]
      split <;> rename_i heq
      · exact absurd heq (by simp)
      · exact absurd heq (by simp)
      · exact absurd heq (by simp)
      · exact absurd heq (by simp)
      · rw [dif_neg hm]
    rw [hc]
    obtain ⟨ih1, ih2, ih3, ih4⟩ := ih
    refine ⟨?_, ?_, ?_, ?_⟩
    · simp only [List.length_cons]
      omega
    · have hcnt : malformedCount
          (AttemptOutcome.failure BackendError.malformedResponseError ::
            (completeAux oracle (k + 1) r (m - 1)).1) =
          malformedCount (completeAux oracle (k + 1) r (m - 1)).1 + 1 := by
        simp [malformedCount, List.countP_cons]
      rw [hcnt]
      omega
    · intro hmem
      have hmem2 : AttemptOutcome.failure BackendError.authError ∈
          (completeAux oracle (k + 1) r (m - 1)).1 := by
        rcases List.mem_cons.mp hmem with heq | hmem2
        · exact absurd heq (by simp)
        · exact hmem2
      refine ⟨(ih3 hmem2).1, ?_⟩
      have hcnt : authCount
          (AttemptOutcome.failure BackendError.malformedResponseError ::
            (completeAux oracle (k + 1) r (m - 1)).1) =
          authCount (completeAux oracle (k + 1) r (m - 1)).1 := by
        simp [authCount, List.countP_cons]
      rw [hcnt]
      exact (ih3 hmem2).2
    · intro hres
      have hres2 := ih4 hres
      have hcnt : transientCount
          (AttemptOutcome.failure BackendError.malformedResponseError ::
            (completeAux oracle (k + 1) r (m - 1)).1) =
          transientCount (completeAux oracle (k + 1) r (m - 1)).1 := by
        simp [transientCount, List.countP_cons]
      rw [hcnt]
      exact hres2
/-- C7: one complete call issues at most maxRetries + 2 attempts (the
initial attempt, up to maxRetries transient retries and one malformed
re-request); at most two malformed-response attempts ever occur (one
re-request); an authentication failure is surfaced immediately (the
result is the auth error and no second auth attempt happens); and when
the call gives up with a transient error it has spent exactly
maxRetries + 1 transient attempts, so network and rate-limit errors are
retried up to the configured budget. -/
theorem completion_retry_policy (oracle : Nat → AttemptOutcome)
    (maxRetries : Nat) :
    (complete oracle maxRetries).1.length ≤ maxRetries + 2 ∧
    malformedCount (complete oracle maxRetries).1 ≤ 2 ∧
    (AttemptOutcome.failure BackendError.authError ∈
        (complete oracle maxRetries).1 →
      (complete oracle maxRetries).2 = Except.error BackendError.authError ∧
      authCount (complete oracle maxRetries).1 = 1) ∧
    ((complete oracle maxRetries).2 = Except.error BackendError.networkError ∨
     (complete oracle maxRetries).2 =
        Except.error BackendError.rateLimitError →
      transientCount (complete oracle maxRetries).1 = maxRetries + 1) := by
  have h := completeAux_spec oracle 0 maxRetries 1
  rw [complete]
  exact ⟨by omega, h.2.1, h.2.2.1, h.2.2.2⟩

/-- C7 witness: an always-rate-limited backend with a transient budget of
two is retried exactly up to the budget and the other retry-policy
bounds hold at that instance. -/
theorem completion_retry_policy_witness :
    (complete (fun _ => AttemptOutcome.failure BackendError.rateLimitError)
        2).1.length ≤ 2 + 2 ∧
    malformedCount (complete
        (fun _ => AttemptOutcome.failure BackendError.rateLimitError) 2).1
      ≤ 2 ∧
    (AttemptOutcome.failure BackendError.authError ∈
        (complete (fun _ =>
          AttemptOutcome.failure BackendError.rateLimitError) 2).1 →
      (complete (fun _ =>
          AttemptOutcome.failure BackendError.rateLimitError) 2).2 =
        Except.error BackendError.authError ∧
      authCount (complete (fun _ =>
          AttemptOutcome.failure BackendError.rateLimitError) 2).1 = 1) ∧
    ((complete (fun _ =>
        AttemptOutcome.failure BackendError.rateLimitError) 2).2 =
          Except.error BackendError.networkError ∨
     (complete (fun _ =>
        AttemptOutcome.failure BackendError.rateLimitError) 2).2 =
          Except.error BackendError.rateLimitError →
      transientCount (complete (fun _ =>
          AttemptOutcome.failure BackendError.rateLimitError) 2).1 = 2 + 1) :=
  completion_retry_policy
    (fun _ => AttemptOutcome.failure BackendError.rateLimitError) 2

/-- C10: SafeOpenaiBackend construction is total and never inspects or
validates the supplied key material — for every key list, including the
list holding the absent value produced by an unset OPENROUTER_API_KEY
environment variable, construction succeeds, the keys are stored
verbatim, the constructed client's base_url is exactly the api_base
string given at construction, and no part of the instance other than the
stored key list depends on the keys, so any credential failure can only
surface at call time. -/
theorem safe_backend_construction_unvalidated (model : String)
    (context_size : Nat) (keys keysB : List (Option String))
    (api_base : String) (window_size : Nat) :
    (mkSafeOpenaiBackend model context_size keys api_base
        window_size).client.base_url = api_base ∧
    (mkSafeOpenaiBackend model context_size keys api_base
        window_size).keys = keys ∧
    (mkSafeOpenaiBackend model context_size [none] api_base
        window_size).keys = [none] ∧
    (mkSafeOpenaiBackend model context_size keys api_base
        window_size).client =
      (mkSafeOpenaiBackend model context_size keysB api_base
        window_size).client ∧
    (mkSafeOpenaiBackend model context_size keys api_base
        window_size).model = model :=
  ⟨rfl, rfl, rfl, rfl, rfl⟩

end RankLLM
